import Mathlib

/-!
Verification of the shared-configuration reconciliation engine of
`percona-everest-backend` (`api/database_cluster.go`, `api/backup_storage.go`).

The Go code is shallowly embedded: the API-side `DatabaseCluster` payload and
the Kubernetes-side `everestv1alpha1.DatabaseCluster` become Lean structures,
Go `map[string]struct{}` values become duplicate-free `List String` values
(the list order standing for one possible map iteration order), and each
fallible external call (metadata store, secrets vault, Kubernetes client,
proxy) is resolved by an explicit environment record.  Handlers are embedded
as pure functions returning the trace of Kubernetes-side effect events they
perform together with the response outcome.
-/

/-! ## Data model

API-side request payload (`DatabaseCluster` generated from the OpenAPI spec):
optional sub-structures are pointers in Go, hence `Option` here.  The
data-source backup-storage name and schedule names are plain strings (possibly
empty); the monitoring config name is a string pointer. -/

namespace Api

structure BackupSource where
  backupStorageName : String
deriving DecidableEq, Repr

structure DataSource where
  backupSource : Option BackupSource
deriving DecidableEq, Repr

structure Schedule where
  backupStorageName : String
deriving DecidableEq, Repr

structure Backup where
  schedules : Option (List Schedule)
deriving DecidableEq, Repr

structure Monitoring where
  monitoringConfigName : Option String
deriving DecidableEq, Repr

structure Spec where
  dataSource : Option DataSource
  backup : Option Backup
  monitoring : Option Monitoring
deriving DecidableEq, Repr

structure DatabaseCluster where
  spec : Option Spec
deriving DecidableEq, Repr

end Api

/-! Kubernetes-side stored cluster (`everestv1alpha1.DatabaseCluster`): the
spec is a value (not a pointer), `Backup.Schedules` is a plain slice and
`Monitoring` is a pointer whose `MonitoringConfigName` is a plain string. -/

namespace K8s

structure BackupSource where
  backupStorageName : String
deriving DecidableEq, Repr

structure DataSource where
  backupSource : Option BackupSource
deriving DecidableEq, Repr

structure Schedule where
  backupStorageName : String
deriving DecidableEq, Repr

structure Backup where
  schedules : List Schedule
deriving DecidableEq, Repr

structure Monitoring where
  monitoringConfigName : String
deriving DecidableEq, Repr

structure Spec where
  dataSource : Option DataSource
  backup : Backup
  monitoring : Option Monitoring
deriving DecidableEq, Repr

structure DatabaseCluster where
  spec : Spec
deriving DecidableEq, Repr

end K8s

/-! ## Reference resolver

`names[name] = struct{}{}` on a Go `map[string]struct{}` is embedded as
`insertName`: append the key if it is not present yet, so the list stays
duplicate-free and doubles as the map's iteration sequence. -/

def insertName (names : List String) (n : String) : List String :=
  if n ∈ names then names else names ++ [n]

/-- Embedding of `backupStorageNamesFrom` (api/database_cluster.go): collect
the data-source backup-storage name (if a data source with a backup source is
set) and every schedule's backup-storage name, with map/set semantics.  Note
that, unlike `withBackupStorageNamesFromDBCluster`, it does not filter out
empty names. -/
def backupStorageNamesFrom (dbc : Api.DatabaseCluster) : List String :=
  match dbc.spec with
  | none => []
  | some sp =>
    let names :=
      match sp.dataSource with
      | some ds =>
        match ds.backupSource with
        | some bs => insertName [] bs.backupStorageName
        | none => []
      | none => []
    match sp.backup with
    | none => names
    | some b =>
      match b.schedules with
      | none => names
      | some scheds =>
        scheds.foldl (fun acc s => insertName acc s.backupStorageName) names

/-- Embedding of `monitoringNameFrom` (api/database_cluster.go). -/
def monitoringNameFrom (db : Api.DatabaseCluster) : String :=
  match db.spec with
  | none => ""
  | some sp =>
    match sp.monitoring with
    | none => ""
    | some m =>
      match m.monitoringConfigName with
      | none => ""
      | some n => n

/-- Embedding of `withBackupStorageNamesFromDBCluster` (api/database_cluster.go):
add to `existing` the stored cluster's data-source backup name and schedule
names, skipping empty names. -/
def withBackupStorageNamesFromDBCluster (existing : List String)
    (dbc : K8s.DatabaseCluster) : List String :=
  let e1 :=
    match dbc.spec.dataSource with
    | some ds =>
      match ds.backupSource with
      | some bs =>
        if bs.backupStorageName ≠ "" then insertName existing bs.backupStorageName
        else existing
      | none => existing
    | none => existing
  dbc.spec.backup.schedules.foldl
    (fun acc s =>
      if s.backupStorageName ≠ "" then insertName acc s.backupStorageName else acc)
    e1

/-- Embedding of `uniqueKeys` (api/database_cluster.go): the keys of `target`
that are not keys of `source`. -/
def uniqueKeys (source target : List String) : List String :=
  target.filter (fun k => k ∉ source)

/-! ### Resolver lemmas -/

theorem mem_insertName {l : List String} {a b : String} :
    a ∈ insertName l b ↔ a = b ∨ a ∈ l := by
  unfold insertName
  by_cases h : b ∈ l
  · simp only [if_pos h]
    constructor
    · exact Or.inr
    · rintro (rfl | ha)
      · exact h
      · exact ha
  · simp only [if_neg h, List.mem_append, List.mem_singleton]
    tauto

theorem nodup_insertName {l : List String} (h : l.Nodup) (b : String) :
    (insertName l b).Nodup := by
  unfold insertName
  by_cases hb : b ∈ l
  · simpa [hb] using h
  · simp only [if_neg hb]
    exact List.Nodup.append h (List.nodup_singleton b) (by simpa using hb)

theorem mem_uniqueKeys {s t : List String} {a : String} :
    a ∈ uniqueKeys s t ↔ a ∈ t ∧ a ∉ s := by
  unfold uniqueKeys
  simp [List.mem_filter]

theorem nodup_foldl_insertName {scheds : List Api.Schedule} :
    ∀ {acc : List String}, acc.Nodup →
      (scheds.foldl (fun acc s => insertName acc s.backupStorageName) acc).Nodup := by
  induction scheds with
  | nil => intro acc h; simpa using h
  | cons s rest ih =>
    intro acc h
    exact ih (nodup_insertName h s.backupStorageName)

theorem nodup_backupStorageNamesFrom (dbc : Api.DatabaseCluster) :
    (backupStorageNamesFrom dbc).Nodup := by
  obtain ⟨spec⟩ := dbc
  rcases spec with _ | ⟨dsrc, bkp, mon⟩
  · simp [backupStorageNamesFrom]
  · rcases dsrc with _ | ⟨_ | ⟨bsname⟩⟩ <;>
      rcases bkp with _ | ⟨_ | ⟨scheds⟩⟩ <;>
      simp only [backupStorageNamesFrom] <;>
      first
        | exact List.nodup_nil
        | exact nodup_insertName List.nodup_nil _
        | exact nodup_foldl_insertName List.nodup_nil
        | exact nodup_foldl_insertName (nodup_insertName List.nodup_nil _)

theorem mem_foldl_insertName {scheds : List Api.Schedule} :
    ∀ {acc : List String} {a : String},
      a ∈ scheds.foldl (fun acc s => insertName acc s.backupStorageName) acc ↔
        a ∈ acc ∨ ∃ s ∈ scheds, s.backupStorageName = a := by
  induction scheds with
  | nil => intro acc a; simp
  | cons s rest ih =>
    intro acc a
    rw [List.foldl_cons, ih]
    rw [mem_insertName]
    constructor
    · rintro ((rfl | ha) | ⟨x, hx, hxa⟩)
      · exact Or.inr ⟨s, by simp, rfl⟩
      · exact Or.inl ha
      · exact Or.inr ⟨x, by simp [hx], hxa⟩
    · rintro (ha | ⟨x, hx, hxa⟩)
      · exact Or.inl (Or.inr ha)
      · rcases List.mem_cons.mp hx with rfl | hx
        · exact Or.inl (Or.inl hxa.symm)
        · exact Or.inr ⟨x, hx, hxa⟩

/-- C9: the backup-storage name resolver has set semantics: a spec with no
data source and no backup schedules resolves to the empty name set (and the
resolver is total, hence never errors), the result never holds duplicates,
and a spec naming the same storage in its data source and in all of its
schedules resolves to a set containing that name exactly once. -/
theorem backupStorageNamesFrom_set_semantics (dbc : Api.DatabaseCluster) :
    ((dbc.spec = none ∨
       ∃ sp, dbc.spec = some sp ∧ sp.dataSource = none ∧ sp.backup = none) →
      backupStorageNamesFrom dbc = []) ∧
    (backupStorageNamesFrom dbc).Nodup ∧
    (∀ sp ds bs b scheds name,
      dbc.spec = some sp →
      sp.dataSource = some ds →
      ds.backupSource = some bs →
      bs.backupStorageName = name →
      sp.backup = some b →
      b.schedules = some scheds →
      (∀ s ∈ scheds, s.backupStorageName = name) →
      (backupStorageNamesFrom dbc).count name = 1) := by
  refine ⟨?_, nodup_backupStorageNamesFrom dbc, ?_⟩
  · rintro (h | ⟨sp, hsp, hds, hb⟩)
    · simp [backupStorageNamesFrom, h]
    · simp [backupStorageNamesFrom, hsp, hds, hb]
  · intro sp ds bs b scheds name hsp hds hbs hname hb hscheds hall
    have hmem : name ∈ backupStorageNamesFrom dbc := by
      simp only [backupStorageNamesFrom, hsp, hds, hbs, hb, hscheds]
      rw [mem_foldl_insertName]
      exact Or.inl (mem_insertName.mpr (Or.inl hname.symm))
    exact List.count_eq_one_of_mem (nodup_backupStorageNamesFrom dbc) hmem

/-- Witness for C9 at a concrete spec naming storage `A` in the data source
and in two schedules, and at a concrete spec with no data source and no
backup section. -/
theorem backupStorageNamesFrom_set_semantics_witness :
    backupStorageNamesFrom
      { spec := some { dataSource := none, backup := none, monitoring := none } } = [] ∧
    (backupStorageNamesFrom
      { spec := some {
          dataSource := some { backupSource := some { backupStorageName := "A" } },
          backup := some { schedules := some [{ backupStorageName := "A" },
                                              { backupStorageName := "A" }] },
          monitoring := none } }).count "A" = 1 := by
  constructor
  · exact (backupStorageNamesFrom_set_semantics _).1
      (Or.inr ⟨_, rfl, rfl, rfl⟩)
  · exact (backupStorageNamesFrom_set_semantics _).2.2
      _ _ _ _ _ "A" rfl rfl rfl rfl rfl rfl (by decide)

/-- C10: the two resolvers disagree on empty names: `backupStorageNamesFrom`
includes the empty string whenever the incoming spec carries a data-source
backup source with an empty storage name, while
`withBackupStorageNamesFromDBCluster` (seeded with the empty set, as the
update and delete flows use it) never includes the empty string; hence for
such an incoming spec the update flow's set difference `uniqueKeys old new`
lists the empty string as a newly added name. -/
theorem resolvers_disagree_on_empty_names
    (dbc : Api.DatabaseCluster) (sp : Api.Spec) (ds : Api.DataSource)
    (bs : Api.BackupSource) (oldDB : K8s.DatabaseCluster)
    (hsp : dbc.spec = some sp) (hds : sp.dataSource = some ds)
    (hbs : ds.backupSource = some bs) (hempty : bs.backupStorageName = "") :
    "" ∈ backupStorageNamesFrom dbc ∧
    (∀ db : K8s.DatabaseCluster, "" ∉ withBackupStorageNamesFromDBCluster [] db) ∧
    "" ∈ uniqueKeys (withBackupStorageNamesFromDBCluster [] oldDB)
          (backupStorageNamesFrom dbc) := by
  have hmem : "" ∈ backupStorageNamesFrom dbc := by
    have hbase : "" ∈ insertName [] bs.backupStorageName :=
      mem_insertName.mpr (Or.inl hempty.symm)
    rcases hb : sp.backup with _ | ⟨_ | ⟨scheds⟩⟩ <;>
      simp only [backupStorageNamesFrom, hsp, hds, hbs, hb]
    · exact hbase
    · exact hbase
    · rw [mem_foldl_insertName]
      exact Or.inl hbase
  have hnot : ∀ db : K8s.DatabaseCluster,
      "" ∉ withBackupStorageNamesFromDBCluster [] db := by
    intro db
    have hstep : ∀ (l : List K8s.Schedule) (acc : List String), "" ∉ acc →
        "" ∉ l.foldl
          (fun acc s =>
            if s.backupStorageName ≠ "" then insertName acc s.backupStorageName
            else acc) acc := by
      intro l
      induction l with
      | nil => intro acc h; simpa using h
      | cons s rest ih =>
        intro acc h
        rw [List.foldl_cons]
        apply ih
        by_cases hs : s.backupStorageName ≠ ""
        · rw [if_pos hs]
          intro hc
          rcases mem_insertName.mp hc with hc | hc
          · exact hs hc.symm
          · exact h hc
        · rw [if_neg hs]; exact h
    obtain ⟨⟨dsrc2, bkp2, mon2⟩⟩ := db
    rcases dsrc2 with _ | ⟨_ | ⟨⟨n2⟩⟩⟩ <;>
      simp only [withBackupStorageNamesFromDBCluster] <;>
      apply hstep
    · simp
    · simp
    · by_cases hn : n2 ≠ ""
      · rw [if_pos hn]
        intro hc
        rcases mem_insertName.mp hc with hc | hc
        · exact hn hc.symm
        · simp at hc
      · rw [if_neg hn]; simp
  exact ⟨hmem, hnot, mem_uniqueKeys.mpr ⟨hmem, hnot oldDB⟩⟩

/-- Witness for C10 at a concrete incoming spec whose data-source backup
source has an empty storage name and a concrete stored cluster. -/
theorem resolvers_disagree_on_empty_names_witness :
    "" ∈ backupStorageNamesFrom
      { spec := some {
          dataSource := some { backupSource := some { backupStorageName := "" } },
          backup := none, monitoring := none } } ∧
    (∀ db : K8s.DatabaseCluster, "" ∉ withBackupStorageNamesFromDBCluster [] db) ∧
    "" ∈ uniqueKeys
          (withBackupStorageNamesFromDBCluster []
            { spec := { dataSource := none, backup := { schedules := [] },
                        monitoring := none } })
          (backupStorageNamesFrom
            { spec := some {
                dataSource := some { backupSource := some { backupStorageName := "" } },
                backup := none, monitoring := none } }) :=
  resolvers_disagree_on_empty_names _ _ _ _ _ rfl rfl rfl rfl

/-! ## Reconciliation engine

Each fallible external call is resolved by an `Env` record: `getBS`
(metadata-store fetch of a backup-storage record), `ensure`
(`EnsureConfigExists` for a backup-storage config), `delRes` (`DeleteConfig`
with the in-use check, i.e. `deleteIfUnreferenced`), `getMon`
(metadata-store fetch of a monitoring instance), `ensureMon` and `delMonRes`
(the monitoring analogues), and the proxy outcome (`proxyErr`, `proxyStatus`).
Handlers return the ordered trace of the effect events they perform together
with their response outcome. -/

inductive DelResult
  | ok
  | inUse
  | err
deriving DecidableEq, Repr

structure Env where
  getBS : String → Bool
  ensure : String → Bool
  delRes : String → DelResult
  getMon : String → Bool
  ensureMon : String → Bool
  delMonRes : String → DelResult
  proxyErr : Bool
  proxyStatus : Nat

inductive Event
  | ensureConfig (name : String)
  | deleteConfig (name : String)
  | ensureMonitoring (name : String)
  | deleteMonitoring (name : String)
  | logError (name : String)
  | proxy
deriving DecidableEq, Repr

inductive Response
  | ok
  | badRequest
  | internalError
  | conflict
  | notFound
  | proxyFailed
deriving DecidableEq, Repr

/-- Embedding of `rollbackCreatedBackupStorages` (api/database_cluster.go):
for each processed name, re-fetch the record (on failure log and continue)
and call `DeleteConfig` with the in-use check; a non-`ErrConfigInUse` error is
logged and the loop continues. -/
def rollbackCreatedBackupStorages (env : Env) : List String → List Event
  | [] => []
  | name :: rest =>
    (if env.getBS name = false then [Event.logError name]
     else
       match env.delRes name with
       | DelResult.err => [Event.deleteConfig name, Event.logError name]
       | _ => [Event.deleteConfig name]) ++
    rollbackCreatedBackupStorages env rest

/-- Shared loop body of `createK8SBackupStorages` and
`createBackupStoragesOnUpdate` (their Go bodies are the same statement for
statement): fetch each name's record (failure aborts with an error and no
rollback), call `EnsureConfigExists` (failure rolls back the processed names
and aborts), and accumulate processed names. -/
def ensureStoragesLoop (env : Env) : List String → List String → List Event × Bool
  | [], _ => ([], true)
  | name :: rest, processed =>
    if env.getBS name = false then ([], false)
    else if env.ensure name = false then
      (Event.ensureConfig name :: rollbackCreatedBackupStorages env processed, false)
    else
      let r := ensureStoragesLoop env rest (processed ++ [name])
      (Event.ensureConfig name :: r.1, r.2)

/-- Embedding of `createK8SBackupStorages` (api/database_cluster.go). -/
def createK8SBackupStorages (env : Env) (names : List String) : List Event × Bool :=
  if names.isEmpty then ([], true)
  else ensureStoragesLoop env names []

/-- Embedding of `createBackupStoragesOnUpdate` (api/database_cluster.go):
run the ensure loop on the names of the new set that are not in the old set. -/
def createBackupStoragesOnUpdate (env : Env) (oldNames newNames : List String) :
    List Event × Bool :=
  ensureStoragesLoop env (uniqueKeys oldNames newNames) []

/-- Embedding of `deleteK8SBackupStorage` (api/database_cluster.go): fetch the
record (failure is an error), call `DeleteConfig`; `ErrConfigInUse` is not an
error for the caller, a hard delete error is. -/
def deleteK8SBackupStorage (env : Env) (name : String) : List Event × Bool :=
  if env.getBS name = false then ([], false)
  else
    match env.delRes name with
    | DelResult.err => ([Event.deleteConfig name], false)
    | _ => ([Event.deleteConfig name], true)

/-- Loop of `deleteBackupStoragesOnUpdate` (api/database_cluster.go): call
`deleteK8SBackupStorage` per name; a non-`ErrConfigInUse` error is logged. -/
def deleteStoragesOnUpdateLoop (env : Env) : List String → List Event
  | [] => []
  | name :: rest =>
    (let r := deleteK8SBackupStorage env name
     if r.2 = false then r.1 ++ [Event.logError name] else r.1) ++
    deleteStoragesOnUpdateLoop env rest

/-- Embedding of `deleteBackupStoragesOnUpdate` (api/database_cluster.go):
delete the names of the old (stored) set that are not in the new set. -/
def deleteBackupStoragesOnUpdate (env : Env) (oldDB : K8s.DatabaseCluster)
    (newNames : List String) : List Event :=
  deleteStoragesOnUpdateLoop env
    (uniqueKeys newNames (withBackupStorageNamesFromDBCluster [] oldDB))

/-- Old monitoring name as computed inline by both monitoring update helpers:
the stored spec's monitoring config name, or the empty string when the stored
spec has no monitoring section. -/
def oldMonitoringNameFrom (oldDB : K8s.DatabaseCluster) : String :=
  match oldDB.spec.monitoring with
  | some m => m.monitoringConfigName
  | none => ""

/-- Embedding of `createMonitoringInstanceOnUpdate` (api/database_cluster.go). -/
def createMonitoringInstanceOnUpdate (env : Env) (oldDB : K8s.DatabaseCluster)
    (newName : String) : List Event × Bool :=
  if newName ≠ "" ∧ newName ≠ oldMonitoringNameFrom oldDB then
    if env.getMon newName = false then ([], false)
    else if env.ensureMon newName = false then
      ([Event.ensureMonitoring newName], false)
    else ([Event.ensureMonitoring newName], true)
  else ([], true)

/-- Embedding of `deleteMonitoringInstanceOnUpdate` (api/database_cluster.go). -/
def deleteMonitoringInstanceOnUpdate (env : Env) (oldDB : K8s.DatabaseCluster)
    (newName : String) : List Event :=
  if oldMonitoringNameFrom oldDB ≠ "" ∧ newName ≠ oldMonitoringNameFrom oldDB then
    if env.getMon (oldMonitoringNameFrom oldDB) = false then
      [Event.logError (oldMonitoringNameFrom oldDB)]
    else
      match env.delMonRes (oldMonitoringNameFrom oldDB) with
      | DelResult.err =>
        [Event.deleteMonitoring (oldMonitoringNameFrom oldDB),
         Event.logError (oldMonitoringNameFrom oldDB)]
      | _ => [Event.deleteMonitoring (oldMonitoringNameFrom oldDB)]
  else []

/-- Embedding of `createResources` (api/database_cluster.go). -/
def createResources (env : Env) (oldDB : K8s.DatabaseCluster)
    (newMonitoringName : String) (newBackupNames : List String) :
    List Event × Bool :=
  let oldNames := withBackupStorageNamesFromDBCluster [] oldDB
  let r1 := createBackupStoragesOnUpdate env oldNames newBackupNames
  if r1.2 = false then (r1.1, false)
  else
    let r2 := createMonitoringInstanceOnUpdate env oldDB newMonitoringName
    (r1.1 ++ r2.1, r2.2)

/-- Embedding of `CreateDatabaseCluster` (api/database_cluster.go).  Body
decoding, CR validation and kube-client initialization are modeled as
succeeding: their failure paths return before any effect modeled here. -/
def CreateDatabaseCluster (env : Env) (dbc : Api.DatabaseCluster) :
    List Event × Response :=
  let r := createK8SBackupStorages env (backupStorageNamesFrom dbc)
  if r.2 = false then (r.1, Response.internalError)
  else
    let m := monitoringNameFrom dbc
    if m ≠ "" then
      if env.getMon m = false then (r.1, Response.badRequest)
      else if env.ensureMon m = false then
        (r.1 ++ [Event.ensureMonitoring m], Response.badRequest)
      else
        (r.1 ++ [Event.ensureMonitoring m, Event.proxy],
         if env.proxyErr then Response.proxyFailed else Response.ok)
    else
      (r.1 ++ [Event.proxy],
       if env.proxyErr then Response.proxyFailed else Response.ok)

/-- Embedding of `UpdateDatabaseCluster` (api/database_cluster.go).  Body
decoding, the two validation steps and fetching the stored cluster are
modeled as succeeding; `oldDB` is the stored cluster.  After a failed proxy
call or a proxy response of status `>= 300` no cleanup runs; otherwise the
two delete phases are dispatched (asynchronously in Go; their events are
appended to the trace here). -/
def UpdateDatabaseCluster (env : Env) (dbc : Api.DatabaseCluster)
    (oldDB : K8s.DatabaseCluster) : List Event × Response :=
  let newMonitoringName := monitoringNameFrom dbc
  let newBackupNames := backupStorageNamesFrom dbc
  let r := createResources env oldDB newMonitoringName newBackupNames
  if r.2 = false then (r.1, Response.internalError)
  else if env.proxyErr then (r.1 ++ [Event.proxy], Response.proxyFailed)
  else if 300 ≤ env.proxyStatus then (r.1 ++ [Event.proxy], Response.ok)
  else
    (r.1 ++ [Event.proxy] ++
       deleteBackupStoragesOnUpdate env oldDB newBackupNames ++
       deleteMonitoringInstanceOnUpdate env oldDB newMonitoringName,
     Response.ok)

/-- Embedding of `deleteK8SBackupStorages` (api/database_cluster.go): per
name, fetch the record (failure only logged) and call `DeleteConfig`;
`ErrConfigInUse` is silently skipped, any other error is logged. -/
def deleteK8SBackupStorages (env : Env) : List String → List Event
  | [] => []
  | name :: rest =>
    (if env.getBS name = false then [Event.logError name]
     else
       match env.delRes name with
       | DelResult.err => [Event.deleteConfig name, Event.logError name]
       | _ => [Event.deleteConfig name]) ++
    deleteK8SBackupStorages env rest

/-- Embedding of `deleteK8SMonitoringConfig` (api/database_cluster.go). -/
def deleteK8SMonitoringConfig (env : Env) (name : String) : List Event :=
  if env.getMon name = false then [Event.logError name]
  else
    match env.delMonRes name with
    | DelResult.err => [Event.deleteMonitoring name, Event.logError name]
    | _ => [Event.deleteMonitoring name]

/-- Modelled from the spec: `kubernetes.BackupStorageNamesFromDBCluster`
(pkg/kubernetes, not part of the sources at hand) resolves the stored spec's
backup-storage names; per the spec the delete flow resolves them exactly as
the update flow does, i.e. as `withBackupStorageNamesFromDBCluster` seeded
with the empty set. -/
def BackupStorageNamesFromDBCluster (db : K8s.DatabaseCluster) : List String :=
  withBackupStorageNamesFromDBCluster [] db

/-- Embedding of `DeleteDatabaseCluster` (api/database_cluster.go).
Kube-client initialization and fetching the stored cluster are modeled as
succeeding (their failure paths return before the proxy call); `db` is the
stored cluster.  After a failed proxy call or a proxy response of status
`>= 300` no cleanup runs; otherwise the backup-storage cleanup and (when the
stored spec names a monitoring config) the monitoring cleanup are dispatched. -/
def DeleteDatabaseCluster (env : Env) (db : K8s.DatabaseCluster) :
    List Event × Response :=
  if env.proxyErr then ([Event.proxy], Response.proxyFailed)
  else if 300 ≤ env.proxyStatus then ([Event.proxy], Response.ok)
  else
    ([Event.proxy] ++
       deleteK8SBackupStorages env (BackupStorageNamesFromDBCluster db) ++
       (match db.spec.monitoring with
        | some m =>
          if m.monitoringConfigName ≠ "" then
            deleteK8SMonitoringConfig env m.monitoringConfigName
          else []
        | none => []),
     Response.ok)

/-! ### Engine lemmas -/

theorem mem_deleteConfig_rollback {env : Env} {l : List String} {a : String} :
    Event.deleteConfig a ∈ rollbackCreatedBackupStorages env l ↔
      a ∈ l ∧ env.getBS a = true := by
  induction l with
  | nil => simp [rollbackCreatedBackupStorages]
  | cons n rest ih =>
    simp only [rollbackCreatedBackupStorages, List.mem_append, ih]
    by_cases hg : env.getBS n = false
    · simp only [if_pos hg]
      constructor
      · rintro (h | ⟨h1, h2⟩)
        · simp at h
        · exact ⟨List.mem_cons_of_mem n h1, h2⟩
      · rintro ⟨h1, h2⟩
        rcases List.mem_cons.mp h1 with rfl | h1
        · rw [hg] at h2; cases h2
        · exact Or.inr ⟨h1, h2⟩
    · simp only [if_neg hg]
      rw [Bool.not_eq_false] at hg
      have hev : Event.deleteConfig a ∈
          (match env.delRes n with
           | DelResult.err => [Event.deleteConfig n, Event.logError n]
           | _ => [Event.deleteConfig n]) ↔ a = n := by
        cases env.delRes n <;> simp
      rw [hev]
      constructor
      · rintro (rfl | ⟨h1, h2⟩)
        · exact ⟨by simp, by assumption⟩
        · exact ⟨List.mem_cons_of_mem n h1, h2⟩
      · rintro ⟨h1, h2⟩
        rcases List.mem_cons.mp h1 with rfl | h1
        · exact Or.inl rfl
        · exact Or.inr ⟨h1, h2⟩

theorem rollback_shape {env : Env} {l : List String} {e : Event}
    (h : e ∈ rollbackCreatedBackupStorages env l) :
    ∃ n, n ∈ l ∧ (e = Event.deleteConfig n ∨ e = Event.logError n) := by
  induction l with
  | nil => simp [rollbackCreatedBackupStorages] at h
  | cons n rest ih =>
    simp only [rollbackCreatedBackupStorages, List.mem_append] at h
    rcases h with h | h
    · refine ⟨n, List.mem_cons_self n rest, ?_⟩
      by_cases hg : env.getBS n = false
      · rw [if_pos hg] at h
        simp at h
        exact Or.inr h
      · rw [if_neg hg] at h
        cases hr : env.delRes n <;> rw [hr] at h <;> simp at h <;> tauto
    · obtain ⟨m, hm, hme⟩ := ih h
      exact ⟨m, List.mem_cons_of_mem n hm, hme⟩

theorem logError_not_mem_rollback {env : Env} {l : List String}
    (hget : ∀ n ∈ l, env.getBS n = true)
    (hdel : ∀ n ∈ l, env.delRes n ≠ DelResult.err) {a : String} :
    Event.logError a ∉ rollbackCreatedBackupStorages env l := by
  induction l with
  | nil => simp [rollbackCreatedBackupStorages]
  | cons n rest ih =>
    simp only [rollbackCreatedBackupStorages, List.mem_append]
    push_neg
    constructor
    · have hg : env.getBS n = true := hget n (List.mem_cons_self n rest)
      rw [if_neg (by rw [hg]; exact fun h => by cases h)]
      have hd := hdel n (List.mem_cons_self n rest)
      cases hr : env.delRes n with
      | err => exact absurd hr hd
      | ok => simp
      | inUse => simp
    · exact ih (fun m hm => hget m (List.mem_cons_of_mem n hm))
        (fun m hm => hdel m (List.mem_cons_of_mem n hm))

theorem logError_mem_rollback_of_err {env : Env} {l : List String} {a : String}
    (ha : a ∈ l) (herr : env.delRes a = DelResult.err) :
    Event.logError a ∈ rollbackCreatedBackupStorages env l := by
  induction l with
  | nil => simp at ha
  | cons n rest ih =>
    simp only [rollbackCreatedBackupStorages, List.mem_append]
    rcases List.mem_cons.mp ha with rfl | ha
    · left
      by_cases hg : env.getBS a = false
      · rw [if_pos hg]; simp
      · rw [if_neg hg, herr]; simp
    · exact Or.inr (ih ha)

theorem deleteK8SBackupStorages_eq_rollback (env : Env) (l : List String) :
    deleteK8SBackupStorages env l = rollbackCreatedBackupStorages env l := by
  induction l with
  | nil => rfl
  | cons n rest ih =>
    simp only [deleteK8SBackupStorages, rollbackCreatedBackupStorages, ih]

theorem ensureStoragesLoop_ok {env : Env} {names : List String}
    (h : ∀ n ∈ names, env.getBS n = true ∧ env.ensure n = true) :
    ∀ processed, ensureStoragesLoop env names processed =
      (names.map Event.ensureConfig, true) := by
  induction names with
  | nil => intro processed; rfl
  | cons n rest ih =>
    intro processed
    have hn := h n (List.mem_cons_self n rest)
    simp only [ensureStoragesLoop]
    rw [if_neg (by rw [hn.1]; exact fun hc => by cases hc)]
    rw [if_neg (by rw [hn.2]; exact fun hc => by cases hc)]
    rw [ih (fun m hm => h m (List.mem_cons_of_mem n hm)) (processed ++ [n])]
    simp

theorem ensureStoragesLoop_split {env : Env} {pre : List String} (n : String)
    (post : List String)
    (h : ∀ p ∈ pre, env.getBS p = true ∧ env.ensure p = true) :
    ∀ processed, ensureStoragesLoop env (pre ++ n :: post) processed =
      (pre.map Event.ensureConfig ++
        (ensureStoragesLoop env (n :: post) (processed ++ pre)).1,
       (ensureStoragesLoop env (n :: post) (processed ++ pre)).2) := by
  induction pre with
  | nil => intro processed; simp
  | cons p rest ih =>
    intro processed
    have hp := h p (List.mem_cons_self p rest)
    have ih2 := ih (fun m hm => h m (List.mem_cons_of_mem p hm)) (processed ++ [p])
    simp [ensureStoragesLoop, hp.1, hp.2, ih2, List.append_assoc]

/-- C1 counterexample input: a spec referencing storages `A` (data source) and
`B` (schedule); the metadata fetch of `B` fails while everything about `A`
succeeds. -/
def dbcC1 : Api.DatabaseCluster :=
  { spec := some {
      dataSource := some { backupSource := some { backupStorageName := "A" } },
      backup := some { schedules := some [{ backupStorageName := "B" }] },
      monitoring := none } }

def envC1 : Env :=
  { getBS := fun s => s == "A", ensure := fun _ => true,
    delRes := fun _ => DelResult.ok, getMon := fun _ => true,
    ensureMon := fun _ => true, delMonRes := fun _ => DelResult.ok,
    proxyErr := false, proxyStatus := 200 }

/-- C1, counterexample: creating a cluster referencing `{A, B}` where
materializing `B` fails at the *metadata fetch* (not at `ensureExists`): `A`
was already materialized, the create returns an error and nothing is proxied,
but — contrary to the claim — no `deleteIfUnreferenced` call is made for `A`,
because `createK8SBackupStorages` returns early without invoking
`rollbackCreatedBackupStorages` when `GetBackupStorage` fails. -/
theorem createDatabaseCluster_fetch_failure_no_rollback :
    envC1.ensure "A" = true ∧ envC1.getBS "B" = false ∧
    backupStorageNamesFrom dbcC1 = ["A", "B"] ∧
    (CreateDatabaseCluster envC1 dbcC1).1 = [Event.ensureConfig "A"] ∧
    (CreateDatabaseCluster envC1 dbcC1).2 = Response.internalError ∧
    Event.deleteConfig "A" ∉ (CreateDatabaseCluster envC1 dbcC1).1 := by
  decide

/-- C1, amended: during cluster creation, when `ensureExists` for one of the
resolved names fails, every name already materialized in that loop (the
prefix before the failing name) receives a `deleteIfUnreferenced` call
(best-effort: no assumption on the delete outcomes), the create returns an
error, and the cluster mutation is never proxied; when instead the *metadata
fetch* of a name fails, the create returns an error and the mutation is never
proxied, but the already-materialized prefix is not rolled back. -/
theorem createDatabaseCluster_rollback_semantics (env : Env)
    (dbc : Api.DatabaseCluster) (pre : List String) (n : String)
    (post : List String)
    (hsplit : backupStorageNamesFrom dbc = pre ++ n :: post)
    (hpre : ∀ p ∈ pre, env.getBS p = true ∧ env.ensure p = true) :
    (env.getBS n = true → env.ensure n = false →
      (CreateDatabaseCluster env dbc).2 = Response.internalError ∧
      Event.proxy ∉ (CreateDatabaseCluster env dbc).1 ∧
      ∀ p ∈ pre, Event.deleteConfig p ∈ (CreateDatabaseCluster env dbc).1) ∧
    (env.getBS n = false →
      (CreateDatabaseCluster env dbc).2 = Response.internalError ∧
      Event.proxy ∉ (CreateDatabaseCluster env dbc).1 ∧
      ∀ p, Event.deleteConfig p ∉ (CreateDatabaseCluster env dbc).1) := by
  have hne : (backupStorageNamesFrom dbc).isEmpty = false := by
    rw [hsplit]
    cases pre <;> rfl
  have hloop := ensureStoragesLoop_split n post hpre []
  rw [List.nil_append] at hloop
  constructor
  · intro hg he
    have htail : ensureStoragesLoop env (n :: post) pre =
        (Event.ensureConfig n :: rollbackCreatedBackupStorages env pre, false) := by
      simp only [ensureStoragesLoop]
      rw [if_neg (by rw [hg]; exact fun hc => by cases hc), if_pos he]
    have hr : createK8SBackupStorages env (backupStorageNamesFrom dbc) =
        (pre.map Event.ensureConfig ++
          Event.ensureConfig n :: rollbackCreatedBackupStorages env pre, false) := by
      rw [createK8SBackupStorages, if_neg (by rw [hne]; exact fun hc => by cases hc),
        hsplit, hloop, htail]
    have hres : CreateDatabaseCluster env dbc =
        (pre.map Event.ensureConfig ++
          Event.ensureConfig n :: rollbackCreatedBackupStorages env pre,
         Response.internalError) := by
      rw [CreateDatabaseCluster, hr]
      simp
    rw [hres]
    refine ⟨rfl, ?_, ?_⟩
    · intro hc
      rcases List.mem_append.mp hc with hc | hc
      · obtain ⟨x, _, hx⟩ := List.mem_map.mp hc
        cases hx
      · rcases List.mem_cons.mp hc with hc | hc
        · cases hc
        · obtain ⟨m, _, hm | hm⟩ := rollback_shape hc <;> cases hm
    · intro p hp
      apply List.mem_append_right
      apply List.mem_cons_of_mem
      exact mem_deleteConfig_rollback.mpr ⟨hp, (hpre p hp).1⟩
  · intro hg
    have htail : ensureStoragesLoop env (n :: post) pre = ([], false) := by
      simp only [ensureStoragesLoop]
      rw [if_pos hg]
    have hr : createK8SBackupStorages env (backupStorageNamesFrom dbc) =
        (pre.map Event.ensureConfig, false) := by
      rw [createK8SBackupStorages, if_neg (by rw [hne]; exact fun hc => by cases hc),
        hsplit, hloop, htail]
      simp
    have hres : CreateDatabaseCluster env dbc =
        (pre.map Event.ensureConfig, Response.internalError) := by
      rw [CreateDatabaseCluster, hr]
      simp
    rw [hres]
    refine ⟨rfl, ?_, ?_⟩
    · intro hc
      obtain ⟨x, _, hx⟩ := List.mem_map.mp hc
      cases hx
    · intro p hc
      obtain ⟨x, _, hx⟩ := List.mem_map.mp hc
      cases hx

def envC1w : Env :=
  { getBS := fun _ => true, ensure := fun s => s == "A",
    delRes := fun _ => DelResult.ok, getMon := fun _ => true,
    ensureMon := fun _ => true, delMonRes := fun _ => DelResult.ok,
    proxyErr := false, proxyStatus := 200 }

/-- Witness for the amended C1 at the spec referencing `{A, B}` with
`ensureExists` failing for `B`: `A` is rolled back, the create errors out and
nothing is proxied. -/
theorem createDatabaseCluster_rollback_semantics_witness :
    (CreateDatabaseCluster envC1w dbcC1).2 = Response.internalError ∧
    Event.proxy ∉ (CreateDatabaseCluster envC1w dbcC1).1 ∧
    ∀ p ∈ ["A"], Event.deleteConfig p ∈ (CreateDatabaseCluster envC1w dbcC1).1 :=
  (createDatabaseCluster_rollback_semantics envC1w dbcC1 ["A"] "B" []
    (by decide) (by decide)).1 (by decide) (by decide)

theorem mem_deleteConfig_deleteLoop {env : Env} {l : List String} {a : String} :
    Event.deleteConfig a ∈ deleteStoragesOnUpdateLoop env l ↔
      a ∈ l ∧ env.getBS a = true := by
  induction l with
  | nil => simp [deleteStoragesOnUpdateLoop]
  | cons n rest ih =>
    have hev : Event.deleteConfig a ∈
        (let r := deleteK8SBackupStorage env n
         if r.2 = false then r.1 ++ [Event.logError n] else r.1) ↔
          (a = n ∧ env.getBS n = true) := by
      by_cases hg : env.getBS n = false
      · simp [deleteK8SBackupStorage, hg]
      · have hg2 : env.getBS n = true := by revert hg; cases env.getBS n <;> simp
        cases hr : env.delRes n <;> simp [deleteK8SBackupStorage, hg2, hr]
    simp only [deleteStoragesOnUpdateLoop, List.mem_append, ih, hev]
    constructor
    · rintro (⟨rfl, h2⟩ | ⟨h1, h2⟩)
      · exact ⟨by simp, h2⟩
      · exact ⟨List.mem_cons_of_mem n h1, h2⟩
    · rintro ⟨h1, h2⟩
      rcases List.mem_cons.mp h1 with rfl | h1
      · exact Or.inl ⟨rfl, h2⟩
      · exact Or.inr ⟨h1, h2⟩

theorem deleteLoop_shape {env : Env} {l : List String} {e : Event}
    (h : e ∈ deleteStoragesOnUpdateLoop env l) :
    ∃ n, n ∈ l ∧ (e = Event.deleteConfig n ∨ e = Event.logError n) := by
  induction l with
  | nil => simp [deleteStoragesOnUpdateLoop] at h
  | cons n rest ih =>
    simp only [deleteStoragesOnUpdateLoop, List.mem_append] at h
    rcases h with h | h
    · refine ⟨n, List.mem_cons_self n rest, ?_⟩
      by_cases hg : env.getBS n = false
      · simp [deleteK8SBackupStorage, hg] at h
        exact Or.inr h
      · have hg2 : env.getBS n = true := by revert hg; cases env.getBS n <;> simp
        cases hr : env.delRes n <;>
          simp [deleteK8SBackupStorage, hg2, hr] at h <;> tauto
    · obtain ⟨m, hm, hme⟩ := ih h
      exact ⟨m, List.mem_cons_of_mem n hm, hme⟩

theorem createMonitoringInstanceOnUpdate_shape (env : Env)
    (oldDB : K8s.DatabaseCluster) (nn : String) :
    (createMonitoringInstanceOnUpdate env oldDB nn).1 = [] ∨
    (createMonitoringInstanceOnUpdate env oldDB nn).1 =
      [Event.ensureMonitoring nn] := by
  unfold createMonitoringInstanceOnUpdate
  by_cases h : nn ≠ "" ∧ nn ≠ oldMonitoringNameFrom oldDB
  · rw [if_pos h]
    by_cases hg : env.getMon nn = false
    · rw [if_pos hg]; left; rfl
    · rw [if_neg hg]
      by_cases he : env.ensureMon nn = false
      · rw [if_pos he]; right; rfl
      · rw [if_neg he]; right; rfl
  · rw [if_neg h]; left; rfl

theorem deleteMonitoringInstanceOnUpdate_shape (env : Env)
    (oldDB : K8s.DatabaseCluster) (nn : String) :
    ∀ e ∈ deleteMonitoringInstanceOnUpdate env oldDB nn,
      e = Event.deleteMonitoring (oldMonitoringNameFrom oldDB) ∨
      e = Event.logError (oldMonitoringNameFrom oldDB) := by
  intro e he
  unfold deleteMonitoringInstanceOnUpdate at he
  by_cases h : oldMonitoringNameFrom oldDB ≠ "" ∧ nn ≠ oldMonitoringNameFrom oldDB
  · rw [if_pos h] at he
    by_cases hg : env.getMon (oldMonitoringNameFrom oldDB) = false
    · rw [if_pos hg] at he
      simp at he
      exact Or.inr he
    · rw [if_neg hg] at he
      cases hr : env.delMonRes (oldMonitoringNameFrom oldDB) <;>
        rw [hr] at he <;> simp at he <;> tauto
  · rw [if_neg h] at he
    simp at he

theorem updateDatabaseCluster_eq_of_ok (env : Env) (dbc : Api.DatabaseCluster)
    (oldDB : K8s.DatabaseCluster)
    (h : (createResources env oldDB (monitoringNameFrom dbc)
            (backupStorageNamesFrom dbc)).2 = true)
    (hp : env.proxyErr = false) (hs : env.proxyStatus < 300) :
    UpdateDatabaseCluster env dbc oldDB =
      ((createResources env oldDB (monitoringNameFrom dbc)
          (backupStorageNamesFrom dbc)).1 ++
        [Event.proxy] ++
        deleteBackupStoragesOnUpdate env oldDB (backupStorageNamesFrom dbc) ++
        deleteMonitoringInstanceOnUpdate env oldDB (monitoringNameFrom dbc),
       Response.ok) := by
  simp only [UpdateDatabaseCluster]
  rw [h, hp]
  simp [Nat.not_le.mpr hs]

/-- C2: on a database-cluster update from stored name set `O` to incoming
name set `N` (fetches and `ensureExists` succeeding for `N \ O`, the record
fetches succeeding for `O \ N`, the monitoring create phase succeeding and
the proxied mutation succeeding), the trace splits around the proxy event
into a create phase `A` and a delete phase `B` such that: `ensureExists` is
called in `A` exactly for the names in `N \ O`, `deleteIfUnreferenced` is
submitted in `B` exactly for the names in `O \ N`, no `ensureExists` happens
after the proxy, and no `deleteIfUnreferenced` happens before it — so names
in both `O` and `N` are touched by neither phase. -/
theorem updateDatabaseCluster_storage_diff (env : Env)
    (dbc : Api.DatabaseCluster) (oldDB : K8s.DatabaseCluster)
    (hcreate : ∀ n ∈ uniqueKeys (withBackupStorageNamesFromDBCluster [] oldDB)
        (backupStorageNamesFrom dbc), env.getBS n = true ∧ env.ensure n = true)
    (hmon : (createMonitoringInstanceOnUpdate env oldDB
        (monitoringNameFrom dbc)).2 = true)
    (hdel : ∀ n ∈ uniqueKeys (backupStorageNamesFrom dbc)
        (withBackupStorageNamesFromDBCluster [] oldDB), env.getBS n = true)
    (hp : env.proxyErr = false) (hs : env.proxyStatus < 300) :
    ∃ A B, (UpdateDatabaseCluster env dbc oldDB).1 = A ++ Event.proxy :: B ∧
      (∀ name, Event.ensureConfig name ∈ A ↔
        (name ∈ backupStorageNamesFrom dbc ∧
         name ∉ withBackupStorageNamesFromDBCluster [] oldDB)) ∧
      (∀ name, Event.deleteConfig name ∈ B ↔
        (name ∈ withBackupStorageNamesFromDBCluster [] oldDB ∧
         name ∉ backupStorageNamesFrom dbc)) ∧
      (∀ name, Event.ensureConfig name ∉ B) ∧
      (∀ name, Event.deleteConfig name ∉ A) := by
  have hloop := ensureStoragesLoop_ok hcreate []
  have hcr : createResources env oldDB (monitoringNameFrom dbc)
      (backupStorageNamesFrom dbc) =
      ((uniqueKeys (withBackupStorageNamesFromDBCluster [] oldDB)
          (backupStorageNamesFrom dbc)).map Event.ensureConfig ++
        (createMonitoringInstanceOnUpdate env oldDB (monitoringNameFrom dbc)).1,
       true) := by
    simp only [createResources, createBackupStoragesOnUpdate, hloop]
    simp [hmon]
  have htr := updateDatabaseCluster_eq_of_ok env dbc oldDB (by rw [hcr]) hp hs
  rw [hcr] at htr
  refine ⟨(uniqueKeys (withBackupStorageNamesFromDBCluster [] oldDB)
      (backupStorageNamesFrom dbc)).map Event.ensureConfig ++
      (createMonitoringInstanceOnUpdate env oldDB (monitoringNameFrom dbc)).1,
    deleteBackupStoragesOnUpdate env oldDB (backupStorageNamesFrom dbc) ++
      deleteMonitoringInstanceOnUpdate env oldDB (monitoringNameFrom dbc),
    ?_, ?_, ?_, ?_, ?_⟩
  · rw [htr]
    simp [List.append_assoc]
  · intro name
    constructor
    · intro hmem
      rcases List.mem_append.mp hmem with hmem | hmem
      · obtain ⟨x, hx, hx2⟩ := List.mem_map.mp hmem
        cases hx2
        exact mem_uniqueKeys.mp hx
      · rcases createMonitoringInstanceOnUpdate_shape env oldDB
            (monitoringNameFrom dbc) with hsh | hsh <;> rw [hsh] at hmem <;>
          simp at hmem
    · intro hmem
      exact List.mem_append_left _
        (List.mem_map.mpr ⟨name, mem_uniqueKeys.mpr hmem, rfl⟩)
  · intro name
    constructor
    · intro hmem
      rcases List.mem_append.mp hmem with hmem | hmem
      · exact mem_uniqueKeys.mp
          (mem_deleteConfig_deleteLoop.mp hmem).1
      · rcases deleteMonitoringInstanceOnUpdate_shape env oldDB
            (monitoringNameFrom dbc) _ hmem with hsh | hsh <;> cases hsh
    · intro hmem
      apply List.mem_append_left
      exact mem_deleteConfig_deleteLoop.mpr
        ⟨mem_uniqueKeys.mpr hmem, hdel name (mem_uniqueKeys.mpr hmem)⟩
  · intro name hmem
    rcases List.mem_append.mp hmem with hmem | hmem
    · obtain ⟨m, _, hm | hm⟩ := deleteLoop_shape hmem <;> cases hm
    · rcases deleteMonitoringInstanceOnUpdate_shape env oldDB
          (monitoringNameFrom dbc) _ hmem with hsh | hsh <;> cases hsh
  · intro name hmem
    rcases List.mem_append.mp hmem with hmem | hmem
    · obtain ⟨x, _, hx⟩ := List.mem_map.mp hmem
      cases hx
    · rcases createMonitoringInstanceOnUpdate_shape env oldDB
          (monitoringNameFrom dbc) with hsh | hsh <;> rw [hsh] at hmem <;>
        simp at hmem

/-- C2 witness inputs: stored storages `{A, B}`, incoming storages `{B, C}`,
all external calls succeeding. -/
def oldDBC2 : K8s.DatabaseCluster :=
  { spec := { dataSource := none,
              backup := { schedules := [{ backupStorageName := "A" },
                                        { backupStorageName := "B" }] },
              monitoring := none } }

def dbcC2 : Api.DatabaseCluster :=
  { spec := some {
      dataSource := none,
      backup := some { schedules := some [{ backupStorageName := "B" },
                                          { backupStorageName := "C" }] },
      monitoring := none } }

def envC2 : Env :=
  { getBS := fun _ => true, ensure := fun _ => true,
    delRes := fun _ => DelResult.ok, getMon := fun _ => true,
    ensureMon := fun _ => true, delMonRes := fun _ => DelResult.ok,
    proxyErr := false, proxyStatus := 200 }

/-- Witness for C2 at the `{A, B} → {B, C}` update. -/
theorem updateDatabaseCluster_storage_diff_witness :
    ∃ A B, (UpdateDatabaseCluster envC2 dbcC2 oldDBC2).1 = A ++ Event.proxy :: B ∧
      (∀ name, Event.ensureConfig name ∈ A ↔
        (name ∈ backupStorageNamesFrom dbcC2 ∧
         name ∉ withBackupStorageNamesFromDBCluster [] oldDBC2)) ∧
      (∀ name, Event.deleteConfig name ∈ B ↔
        (name ∈ withBackupStorageNamesFromDBCluster [] oldDBC2 ∧
         name ∉ backupStorageNamesFrom dbcC2)) ∧
      (∀ name, Event.ensureConfig name ∉ B) ∧
      (∀ name, Event.deleteConfig name ∉ A) :=
  updateDatabaseCluster_storage_diff envC2 dbcC2 oldDBC2
    (by decide) (by decide) (by decide) rfl (by decide)

theorem ensureStoragesLoop_events_of_ok {env : Env} {names : List String} :
    ∀ processed, (ensureStoragesLoop env names processed).2 = true →
      (ensureStoragesLoop env names processed).1 =
        names.map Event.ensureConfig := by
  induction names with
  | nil => intro processed h; rfl
  | cons n rest ih =>
    intro processed h
    by_cases hg : env.getBS n = false
    · exfalso
      simp [ensureStoragesLoop, hg] at h
    · by_cases he : env.ensure n = false
      · exfalso
        simp [ensureStoragesLoop, hg, he] at h
      · have h2 : (ensureStoragesLoop env rest (processed ++ [n])).2 = true := by
          simpa [ensureStoragesLoop, hg, he] using h
        simp [ensureStoragesLoop, hg, he, ih (processed ++ [n]) h2]

/-- C8: on a database-cluster update (backup-storage create phase and the
relevant monitoring fetches succeeding), if the proxied mutation succeeds the
trace splits around the proxy event such that the new monitoring name is
materialized (before the proxy) iff it is non-empty and differs from the old
name, and the old monitoring name is submitted to `deleteIfUnreferenced`
(after the proxy) iff it is non-empty and differs from the new name; if the
proxy call errors or reports status `>= 300`, no monitoring deletion is
submitted at all. -/
theorem updateDatabaseCluster_monitoring_semantics (env : Env)
    (dbc : Api.DatabaseCluster) (oldDB : K8s.DatabaseCluster)
    (hbs : (createBackupStoragesOnUpdate env
        (withBackupStorageNamesFromDBCluster [] oldDB)
        (backupStorageNamesFrom dbc)).2 = true)
    (hgetNew : env.getMon (monitoringNameFrom dbc) = true)
    (hensNew : env.ensureMon (monitoringNameFrom dbc) = true)
    (hgetOld : env.getMon (oldMonitoringNameFrom oldDB) = true) :
    (env.proxyErr = false → env.proxyStatus < 300 →
      ∃ A B, (UpdateDatabaseCluster env dbc oldDB).1 = A ++ Event.proxy :: B ∧
        (Event.ensureMonitoring (monitoringNameFrom dbc) ∈ A ↔
          (monitoringNameFrom dbc ≠ "" ∧
           monitoringNameFrom dbc ≠ oldMonitoringNameFrom oldDB)) ∧
        (Event.deleteMonitoring (oldMonitoringNameFrom oldDB) ∈ B ↔
          (oldMonitoringNameFrom oldDB ≠ "" ∧
           oldMonitoringNameFrom oldDB ≠ monitoringNameFrom dbc)) ∧
        (∀ m, Event.deleteMonitoring m ∉ A) ∧
        (∀ m, Event.ensureMonitoring m ∉ B)) ∧
    (env.proxyErr = true →
      ∀ m, Event.deleteMonitoring m ∉ (UpdateDatabaseCluster env dbc oldDB).1) ∧
    (300 ≤ env.proxyStatus →
      ∀ m, Event.deleteMonitoring m ∉ (UpdateDatabaseCluster env dbc oldDB).1) := by
  have hmonEv : (createMonitoringInstanceOnUpdate env oldDB
      (monitoringNameFrom dbc)).1 =
      (if monitoringNameFrom dbc ≠ "" ∧
          monitoringNameFrom dbc ≠ oldMonitoringNameFrom oldDB then
        [Event.ensureMonitoring (monitoringNameFrom dbc)]
      else []) ∧
      (createMonitoringInstanceOnUpdate env oldDB
        (monitoringNameFrom dbc)).2 = true := by
    unfold createMonitoringInstanceOnUpdate
    by_cases h : monitoringNameFrom dbc ≠ "" ∧
        monitoringNameFrom dbc ≠ oldMonitoringNameFrom oldDB
    · simp [h, hgetNew, hensNew]
    · simp [h]
  have hdelEv : deleteMonitoringInstanceOnUpdate env oldDB
      (monitoringNameFrom dbc) =
      (if oldMonitoringNameFrom oldDB ≠ "" ∧
          monitoringNameFrom dbc ≠ oldMonitoringNameFrom oldDB then
        (match env.delMonRes (oldMonitoringNameFrom oldDB) with
         | DelResult.err =>
           [Event.deleteMonitoring (oldMonitoringNameFrom oldDB),
            Event.logError (oldMonitoringNameFrom oldDB)]
         | _ => [Event.deleteMonitoring (oldMonitoringNameFrom oldDB)])
      else []) := by
    unfold deleteMonitoringInstanceOnUpdate
    by_cases h : oldMonitoringNameFrom oldDB ≠ "" ∧
        monitoringNameFrom dbc ≠ oldMonitoringNameFrom oldDB
    · simp [h, hgetOld]
    · simp [h]
  have hbsEv : (createBackupStoragesOnUpdate env
      (withBackupStorageNamesFromDBCluster [] oldDB)
      (backupStorageNamesFrom dbc)).1 =
      (uniqueKeys (withBackupStorageNamesFromDBCluster [] oldDB)
        (backupStorageNamesFrom dbc)).map Event.ensureConfig :=
    ensureStoragesLoop_events_of_ok [] hbs
  have hcr : createResources env oldDB (monitoringNameFrom dbc)
      (backupStorageNamesFrom dbc) =
      ((uniqueKeys (withBackupStorageNamesFromDBCluster [] oldDB)
          (backupStorageNamesFrom dbc)).map Event.ensureConfig ++
        (createMonitoringInstanceOnUpdate env oldDB (monitoringNameFrom dbc)).1,
       true) := by
    simp only [createResources]
    rw [hbs]
    simp only [Bool.true_eq_false, if_false]
    rw [hbsEv, hmonEv.2]
  refine ⟨?_, ?_, ?_⟩
  · intro hp hs
    have htr := updateDatabaseCluster_eq_of_ok env dbc oldDB (by rw [hcr]) hp hs
    rw [hcr] at htr
    refine ⟨(uniqueKeys (withBackupStorageNamesFromDBCluster [] oldDB)
        (backupStorageNamesFrom dbc)).map Event.ensureConfig ++
        (createMonitoringInstanceOnUpdate env oldDB (monitoringNameFrom dbc)).1,
      deleteBackupStoragesOnUpdate env oldDB (backupStorageNamesFrom dbc) ++
        deleteMonitoringInstanceOnUpdate env oldDB (monitoringNameFrom dbc),
      ?_, ?_, ?_, ?_, ?_⟩
    · rw [htr]
      simp [List.append_assoc]
    · rw [hmonEv.1]
      constructor
      · intro hmem
        rcases List.mem_append.mp hmem with hmem | hmem
        · obtain ⟨x, _, hx⟩ := List.mem_map.mp hmem
          cases hx
        · by_cases h : monitoringNameFrom dbc ≠ "" ∧
              monitoringNameFrom dbc ≠ oldMonitoringNameFrom oldDB
          · exact h
          · rw [if_neg h] at hmem
            simp at hmem
      · intro h
        apply List.mem_append_right
        rw [if_pos h]
        simp
    · rw [hdelEv]
      constructor
      · intro hmem
        rcases List.mem_append.mp hmem with hmem | hmem
        · obtain ⟨m, _, hm | hm⟩ := deleteLoop_shape hmem <;> cases hm
        · by_cases h : oldMonitoringNameFrom oldDB ≠ "" ∧
              monitoringNameFrom dbc ≠ oldMonitoringNameFrom oldDB
          · exact ⟨h.1, fun hc => h.2 hc.symm⟩
          · rw [if_neg h] at hmem
            simp at hmem
      · intro h
        apply List.mem_append_right
        rw [if_pos ⟨h.1, fun hc => h.2 hc.symm⟩]
        cases env.delMonRes (oldMonitoringNameFrom oldDB) <;> simp
    · intro m hmem
      rcases List.mem_append.mp hmem with hmem | hmem
      · obtain ⟨x, _, hx⟩ := List.mem_map.mp hmem
        cases hx
      · rcases createMonitoringInstanceOnUpdate_shape env oldDB
            (monitoringNameFrom dbc) with hsh | hsh <;> rw [hsh] at hmem <;>
          simp at hmem
    · intro m hmem
      rcases List.mem_append.mp hmem with hmem | hmem
      · obtain ⟨x, _, hx | hx⟩ := deleteLoop_shape hmem <;> cases hx
      · rcases deleteMonitoringInstanceOnUpdate_shape env oldDB
            (monitoringNameFrom dbc) _ hmem with hsh | hsh <;> cases hsh
  · intro hp m
    have htr : UpdateDatabaseCluster env dbc oldDB =
        ((createResources env oldDB (monitoringNameFrom dbc)
            (backupStorageNamesFrom dbc)).1 ++ [Event.proxy],
         Response.proxyFailed) := by
      simp only [UpdateDatabaseCluster]
      rw [hcr]
      simp [hp]
    rw [htr, hcr]
    intro hmem
    simp only [List.mem_append] at hmem
    rcases hmem with (hmem | hmem) | hmem
    · obtain ⟨x, _, hx⟩ := List.mem_map.mp hmem
      cases hx
    · rcases createMonitoringInstanceOnUpdate_shape env oldDB
          (monitoringNameFrom dbc) with hsh | hsh <;> rw [hsh] at hmem <;>
        simp at hmem
    · simp at hmem
  · intro hs m
    by_cases hp : env.proxyErr = true
    · have htr : UpdateDatabaseCluster env dbc oldDB =
          ((createResources env oldDB (monitoringNameFrom dbc)
              (backupStorageNamesFrom dbc)).1 ++ [Event.proxy],
           Response.proxyFailed) := by
        simp only [UpdateDatabaseCluster]
        rw [hcr]
        simp [hp]
      rw [htr, hcr]
      intro hmem
      simp only [List.mem_append] at hmem
      rcases hmem with (hmem | hmem) | hmem
      · obtain ⟨x, _, hx⟩ := List.mem_map.mp hmem
        cases hx
      · rcases createMonitoringInstanceOnUpdate_shape env oldDB
            (monitoringNameFrom dbc) with hsh | hsh <;> rw [hsh] at hmem <;>
          simp at hmem
      · simp at hmem
    · have hp2 : env.proxyErr = false := by
        revert hp; cases env.proxyErr <;> simp
      have htr : UpdateDatabaseCluster env dbc oldDB =
          ((createResources env oldDB (monitoringNameFrom dbc)
              (backupStorageNamesFrom dbc)).1 ++ [Event.proxy],
           Response.ok) := by
        simp only [UpdateDatabaseCluster]
        rw [hcr]
        simp [hp2, hs]
      rw [htr, hcr]
      intro hmem
      simp only [List.mem_append] at hmem
      rcases hmem with (hmem | hmem) | hmem
      · obtain ⟨x, _, hx⟩ := List.mem_map.mp hmem
        cases hx
      · rcases createMonitoringInstanceOnUpdate_shape env oldDB
            (monitoringNameFrom dbc) with hsh | hsh <;> rw [hsh] at hmem <;>
          simp at hmem
      · simp at hmem

/-- C8 witness inputs: the stored cluster monitors with `M1`, the incoming
spec monitors with `M2`, no backup storages, everything succeeding. -/
def oldDBC8 : K8s.DatabaseCluster :=
  { spec := { dataSource := none, backup := { schedules := [] },
              monitoring := some { monitoringConfigName := "M1" } } }

def dbcC8 : Api.DatabaseCluster :=
  { spec := some { dataSource := none, backup := none,
                   monitoring := some { monitoringConfigName := some "M2" } } }

def envC8 : Env :=
  { getBS := fun _ => true, ensure := fun _ => true,
    delRes := fun _ => DelResult.ok, getMon := fun _ => true,
    ensureMon := fun _ => true, delMonRes := fun _ => DelResult.ok,
    proxyErr := false, proxyStatus := 200 }

/-- Witness for C8 at the `M1 → M2` monitoring change with a successful
proxied mutation. -/
theorem updateDatabaseCluster_monitoring_semantics_witness :
    ∃ A B, (UpdateDatabaseCluster envC8 dbcC8 oldDBC8).1 = A ++ Event.proxy :: B ∧
      (Event.ensureMonitoring (monitoringNameFrom dbcC8) ∈ A ↔
        (monitoringNameFrom dbcC8 ≠ "" ∧
         monitoringNameFrom dbcC8 ≠ oldMonitoringNameFrom oldDBC8)) ∧
      (Event.deleteMonitoring (oldMonitoringNameFrom oldDBC8) ∈ B ↔
        (oldMonitoringNameFrom oldDBC8 ≠ "" ∧
         oldMonitoringNameFrom oldDBC8 ≠ monitoringNameFrom dbcC8)) ∧
      (∀ m, Event.deleteMonitoring m ∉ A) ∧
      (∀ m, Event.ensureMonitoring m ∉ B) :=
  (updateDatabaseCluster_monitoring_semantics envC8 dbcC8 oldDBC8
    (by decide) rfl rfl rfl).1 rfl (by decide)

theorem deleteK8SMonitoringConfig_mem {env : Env} {name : String}
    (h : env.getMon name = true) :
    Event.deleteMonitoring name ∈ deleteK8SMonitoringConfig env name := by
  unfold deleteK8SMonitoringConfig
  rw [if_neg (by rw [h]; exact fun hc => by cases hc)]
  cases env.delMonRes name <;> simp

theorem logError_not_mem_deleteK8SMonitoringConfig {env : Env} {name : String}
    (h : env.getMon name = true) (hr : env.delMonRes name ≠ DelResult.err)
    {x : String} :
    Event.logError x ∉ deleteK8SMonitoringConfig env name := by
  unfold deleteK8SMonitoringConfig
  rw [if_neg (by rw [h]; exact fun hc => by cases hc)]
  cases hd : env.delMonRes name with
  | err => exact absurd hd hr
  | ok => simp
  | inUse => simp

/-- C4: on a database-cluster delete, if the proxy call errors or the proxied
response has status `>= 300`, the handler stops after the proxy attempt — no
`deleteIfUnreferenced` call is made for any backup-storage or monitoring
name; if the proxied delete succeeds (record fetches succeeding), the handler
responds success and `deleteIfUnreferenced` is invoked for every resolved
backup-storage name and for the old spec's non-empty monitoring name, hard
delete errors are logged but never surfaced (the response stays success), and
`ErrConfigInUse` outcomes are silently skipped (nothing logged). -/
theorem deleteDatabaseCluster_cleanup_semantics (env : Env)
    (db : K8s.DatabaseCluster)
    (hget : ∀ n ∈ BackupStorageNamesFromDBCluster db, env.getBS n = true)
    (hgetMon : ∀ m, env.getMon m = true) :
    (env.proxyErr = true →
      DeleteDatabaseCluster env db = ([Event.proxy], Response.proxyFailed)) ∧
    (env.proxyErr = false → 300 ≤ env.proxyStatus →
      DeleteDatabaseCluster env db = ([Event.proxy], Response.ok)) ∧
    (env.proxyErr = false → env.proxyStatus < 300 →
      (DeleteDatabaseCluster env db).2 = Response.ok ∧
      (∀ n ∈ BackupStorageNamesFromDBCluster db,
        Event.deleteConfig n ∈ (DeleteDatabaseCluster env db).1) ∧
      (∀ m, db.spec.monitoring = some m → m.monitoringConfigName ≠ "" →
        Event.deleteMonitoring m.monitoringConfigName ∈
          (DeleteDatabaseCluster env db).1) ∧
      (∀ n ∈ BackupStorageNamesFromDBCluster db,
        env.delRes n = DelResult.err →
        Event.logError n ∈ (DeleteDatabaseCluster env db).1) ∧
      ((∀ n ∈ BackupStorageNamesFromDBCluster db,
          env.delRes n ≠ DelResult.err) →
       (∀ m, db.spec.monitoring = some m →
          env.delMonRes m.monitoringConfigName ≠ DelResult.err) →
       ∀ x, Event.logError x ∉ (DeleteDatabaseCluster env db).1)) := by
  refine ⟨?_, ?_, ?_⟩
  · intro hp
    simp [DeleteDatabaseCluster, hp]
  · intro hp hs
    simp [DeleteDatabaseCluster, hp, hs]
  · intro hp hs
    have htr : DeleteDatabaseCluster env db =
        ([Event.proxy] ++
           deleteK8SBackupStorages env (BackupStorageNamesFromDBCluster db) ++
           (match db.spec.monitoring with
            | some m =>
              if m.monitoringConfigName ≠ "" then
                deleteK8SMonitoringConfig env m.monitoringConfigName
              else []
            | none => []),
         Response.ok) := by
      simp [DeleteDatabaseCluster, hp, Nat.not_le.mpr hs]
    rw [htr]
    rw [deleteK8SBackupStorages_eq_rollback]
    refine ⟨rfl, ?_, ?_, ?_, ?_⟩
    · intro n hn
      apply List.mem_append_left
      apply List.mem_append_right
      exact mem_deleteConfig_rollback.mpr ⟨hn, hget n hn⟩
    · intro m hm hne
      apply List.mem_append_right
      simp only [hm]
      rw [if_pos hne]
      exact deleteK8SMonitoringConfig_mem (hgetMon m.monitoringConfigName)
    · intro n hn herr
      apply List.mem_append_left
      apply List.mem_append_right
      exact logError_mem_rollback_of_err hn herr
    · intro hderr hmderr x
      intro hmem
      rcases List.mem_append.mp hmem with hmem | hmem
      · rcases List.mem_append.mp hmem with hmem | hmem
        · simp at hmem
        · exact logError_not_mem_rollback hget hderr hmem
      · cases hmon : db.spec.monitoring with
        | none => rw [hmon] at hmem; simp at hmem
        | some m =>
          simp only [hmon] at hmem
          by_cases hne : m.monitoringConfigName ≠ ""
          · rw [if_pos hne] at hmem
            exact logError_not_mem_deleteK8SMonitoringConfig
              (hgetMon m.monitoringConfigName) (hmderr m hmon) hmem
          · rw [if_neg hne] at hmem
            simp at hmem

/-- C4 witness inputs: a stored cluster referencing storage `A` and
monitoring `M`; one environment where the proxy fails and one where it
succeeds with every cleanup call succeeding. -/
def dbC4 : K8s.DatabaseCluster :=
  { spec := { dataSource := none,
              backup := { schedules := [{ backupStorageName := "A" }] },
              monitoring := some { monitoringConfigName := "M" } } }

def envC4err : Env :=
  { getBS := fun _ => true, ensure := fun _ => true,
    delRes := fun _ => DelResult.ok, getMon := fun _ => true,
    ensureMon := fun _ => true, delMonRes := fun _ => DelResult.ok,
    proxyErr := true, proxyStatus := 200 }

def envC4ok : Env :=
  { getBS := fun _ => true, ensure := fun _ => true,
    delRes := fun _ => DelResult.ok, getMon := fun _ => true,
    ensureMon := fun _ => true, delMonRes := fun _ => DelResult.ok,
    proxyErr := false, proxyStatus := 200 }

/-- Witness for C4: with a failing proxy nothing is cleaned up; with a
succeeding proxy the storage and monitoring cleanups are submitted and the
response is success. -/
theorem deleteDatabaseCluster_cleanup_semantics_witness :
    DeleteDatabaseCluster envC4err dbC4 = ([Event.proxy], Response.proxyFailed) ∧
    (DeleteDatabaseCluster envC4ok dbC4).2 = Response.ok ∧
    Event.deleteConfig "A" ∈ (DeleteDatabaseCluster envC4ok dbC4).1 ∧
    Event.deleteMonitoring "M" ∈ (DeleteDatabaseCluster envC4ok dbC4).1 := by
  refine ⟨(deleteDatabaseCluster_cleanup_semantics envC4err dbC4 (by decide)
      (fun m => rfl)).1 rfl, ?_, ?_, ?_⟩
  · exact ((deleteDatabaseCluster_cleanup_semantics envC4ok dbC4 (by decide)
      (fun m => rfl)).2.2 rfl (by decide)).1
  · exact ((deleteDatabaseCluster_cleanup_semantics envC4ok dbC4 (by decide)
      (fun m => rfl)).2.2 rfl (by decide)).2.1 "A" (by decide)
  · exact ((deleteDatabaseCluster_cleanup_semantics envC4ok dbC4 (by decide)
      (fun m => rfl)).2.2 rfl (by decide)).2.2.1
      { monitoringConfigName := "M" } rfl (by decide)

/-! ## Backup-storage lifecycle endpoints

The secrets vault is modeled as the list of resolvable secret ids; deleting a
secret removes its id (key-value-store semantics). -/

def deleteSecret (vault : List String) (id : String) : List String :=
  vault.filter (fun i => i ≠ id)

structure BackupStorageRecord where
  accessKeyID : String
  secretKeyID : String
deriving DecidableEq, Repr

structure UpdateState where
  vault : List String
  record : BackupStorageRecord
  k8sConfig : BackupStorageRecord
deriving DecidableEq, Repr

/-- Embedding of the externally visible steps of a backup-storage credential
update carrying both a new access key and a new secret key
(`UpdateBackupStorage` → `createSecrets` → `performBackupStorageUpdate` →
`updateBackupStorage` in a transaction → `kubeClient.UpdateConfig` →
`deleteOldSecretsAfterUpdate`, api/backup_storage.go), as the sequence of
states after each step, in source order: initial state, after `CreateSecret`
of the new access key (fresh id `newAccessKeyID`), after `CreateSecret` of
the new secret key (fresh id `newSecretKeyID`), after the record-update
transaction commits, after `UpdateConfig` rematerializes the Kubernetes
config from the updated record, after `DeleteSecret` of the old access-key
id, and after `DeleteSecret` of the old secret-key id. -/
def updateBackupStorageStates (s : UpdateState)
    (newAccessKeyID newSecretKeyID : String) : List UpdateState :=
  let s1 : UpdateState := { s with vault := s.vault ++ [newAccessKeyID] }
  let s2 : UpdateState := { s1 with vault := s1.vault ++ [newSecretKeyID] }
  let s3 : UpdateState := { s2 with
    record := { accessKeyID := newAccessKeyID, secretKeyID := newSecretKeyID } }
  let s4 : UpdateState := { s3 with k8sConfig := s3.record }
  let s5 : UpdateState := { s4 with
    vault := deleteSecret s4.vault s.record.accessKeyID }
  let s6 : UpdateState := { s5 with
    vault := deleteSecret s5.vault s.record.secretKeyID }
  [s, s1, s2, s3, s4, s5, s6]

/-- C3: throughout a backup-storage credential update (old ids resolvable at
the start, new ids fresh and distinct), the stored record never references a
secret id that is not resolvable in the vault; just before the old-secret
deletions the record and the materialized config already carry the new ids
while the old ids are still resolvable; and after the operation completes the
old ids are no longer resolvable, the new ids are resolvable, and the
materialized config reflects the new ids. -/
theorem backupStorageUpdate_secret_consistency (s : UpdateState)
    (newA newS : String)
    (hA : s.record.accessKeyID ∈ s.vault) (hS : s.record.secretKeyID ∈ s.vault)
    (hfA : newA ∉ s.vault) (hfS : newS ∉ s.vault) (_hAS : newA ≠ newS) :
    (∀ st ∈ updateBackupStorageStates s newA newS,
      st.record.accessKeyID ∈ st.vault ∧ st.record.secretKeyID ∈ st.vault) ∧
    (((updateBackupStorageStates s newA newS).getD 4 s).record =
        { accessKeyID := newA, secretKeyID := newS } ∧
     ((updateBackupStorageStates s newA newS).getD 4 s).k8sConfig =
        { accessKeyID := newA, secretKeyID := newS } ∧
     s.record.accessKeyID ∈ ((updateBackupStorageStates s newA newS).getD 4 s).vault ∧
     s.record.secretKeyID ∈ ((updateBackupStorageStates s newA newS).getD 4 s).vault) ∧
    (s.record.accessKeyID ∉ ((updateBackupStorageStates s newA newS).getLastD s).vault ∧
     s.record.secretKeyID ∉ ((updateBackupStorageStates s newA newS).getLastD s).vault ∧
     newA ∈ ((updateBackupStorageStates s newA newS).getLastD s).vault ∧
     newS ∈ ((updateBackupStorageStates s newA newS).getLastD s).vault ∧
     ((updateBackupStorageStates s newA newS).getLastD s).record =
        { accessKeyID := newA, secretKeyID := newS } ∧
     ((updateBackupStorageStates s newA newS).getLastD s).k8sConfig =
        { accessKeyID := newA, secretKeyID := newS }) := by
  have hneAA : newA ≠ s.record.accessKeyID := fun h => hfA (h ▸ hA)
  have hneAS : newA ≠ s.record.secretKeyID := fun h => hfA (h ▸ hS)
  have hneSA : newS ≠ s.record.accessKeyID := fun h => hfS (h ▸ hA)
  have hneSS : newS ≠ s.record.secretKeyID := fun h => hfS (h ▸ hS)
  refine ⟨?_, ?_, ?_⟩
  · intro st hst
    simp only [updateBackupStorageStates, List.mem_cons, List.not_mem_nil,
      or_false] at hst
    rcases hst with rfl | rfl | rfl | rfl | rfl | rfl | rfl
    · exact ⟨hA, hS⟩
    · exact ⟨by simp [hA], by simp [hS]⟩
    · exact ⟨by simp [hA], by simp [hS]⟩
    · exact ⟨by simp, by simp⟩
    · exact ⟨by simp, by simp⟩
    · constructor
      · simp [deleteSecret, List.mem_filter, hneAA]
      · simp [deleteSecret, List.mem_filter, hneSA]
    · constructor
      · simp [deleteSecret, List.mem_filter, hneAA, hneAS]
      · simp [deleteSecret, List.mem_filter, hneSA, hneSS]
  · refine ⟨rfl, rfl, ?_, ?_⟩
    · simp [updateBackupStorageStates, hA]
    · simp [updateBackupStorageStates, hS]
  · refine ⟨?_, ?_, ?_, ?_, rfl, rfl⟩
    · simp [updateBackupStorageStates, deleteSecret, List.mem_filter]
    · simp [updateBackupStorageStates, deleteSecret, List.mem_filter]
    · simp [updateBackupStorageStates, deleteSecret, List.mem_filter, hneAA, hneAS]
    · simp [updateBackupStorageStates, deleteSecret, List.mem_filter, hneSA, hneSS]

/-- Witness for C3 at a concrete record `(oa, os)` updated to fresh ids
`(na, ns)`. -/
theorem backupStorageUpdate_secret_consistency_witness :
    (∀ st ∈ updateBackupStorageStates
        { vault := ["oa", "os"],
          record := { accessKeyID := "oa", secretKeyID := "os" },
          k8sConfig := { accessKeyID := "oa", secretKeyID := "os" } } "na" "ns",
      st.record.accessKeyID ∈ st.vault ∧ st.record.secretKeyID ∈ st.vault) ∧
    "oa" ∉ ((updateBackupStorageStates
        { vault := ["oa", "os"],
          record := { accessKeyID := "oa", secretKeyID := "os" },
          k8sConfig := { accessKeyID := "oa", secretKeyID := "os" } } "na" "ns").getLastD
        { vault := ["oa", "os"],
          record := { accessKeyID := "oa", secretKeyID := "os" },
          k8sConfig := { accessKeyID := "oa", secretKeyID := "os" } }).vault ∧
    "na" ∈ ((updateBackupStorageStates
        { vault := ["oa", "os"],
          record := { accessKeyID := "oa", secretKeyID := "os" },
          k8sConfig := { accessKeyID := "oa", secretKeyID := "os" } } "na" "ns").getLastD
        { vault := ["oa", "os"],
          record := { accessKeyID := "oa", secretKeyID := "os" },
          k8sConfig := { accessKeyID := "oa", secretKeyID := "os" } }).vault := by
  have h := backupStorageUpdate_secret_consistency
    { vault := ["oa", "os"],
      record := { accessKeyID := "oa", secretKeyID := "os" },
      k8sConfig := { accessKeyID := "oa", secretKeyID := "os" } } "na" "ns"
    (by decide) (by decide) (by decide) (by decide) (by decide)
  exact ⟨h.1, h.2.2.1, h.2.2.2.2.1⟩

/-! ## Backup-storage create -/

structure CreateBSEnv where
  getStorageFails : Bool
  nameExists : Bool
  createAccessSecretFails : Bool
  createSecretKeyFails : Bool
  insertRecordFails : Bool
deriving DecidableEq, Repr

/-- Embedding of `cleanUpNewSecretsOnUpdateError` (api/backup_storage.go):
when the passed error is non-nil, delete the secrets whose id pointers are
non-nil; otherwise do nothing. -/
def cleanUpNewSecretsOnUpdateError (errOccurred : Bool) (vault : List String)
    (newAccessKeyID newSecretKeyID : Option String) : List String :=
  if errOccurred = false then vault
  else
    let v1 :=
      match newAccessKeyID with
      | some i => deleteSecret vault i
      | none => vault
    match newSecretKeyID with
    | some i => deleteSecret v1 i
    | none => v1

/-- Embedding of `CreateBackupStorage` (api/backup_storage.go) over the
secrets-vault state, with `aID` and `sID` the fresh ids generated for the two
new secrets.  The Go handler installs
`defer e.cleanUpNewSecretsOnUpdateError(err, accessKeyID, secretKeyID)` right
after the duplicate-name check; Go evaluates the arguments of a deferred call
at the `defer` statement, so the deferred cleanup receives the values current
at that point: the error of the duplicate-name lookup (the record-not-found
sentinel — a non-nil error — on the fresh-name path) and the two still-nil
secret-id pointers.  These captured values are threaded explicitly below and
the cleanup is applied on every exit path after the `defer` point. -/
def CreateBackupStorage (env : CreateBSEnv) (vault : List String)
    (aID sID : String) : List String × Response :=
  if env.getStorageFails then (vault, Response.internalError)
  else if env.nameExists then (vault, Response.conflict)
  else
    let capturedErrOccurred := true
    let capturedAccessKeyID : Option String := none
    let capturedSecretKeyID : Option String := none
    if env.createAccessSecretFails then
      (cleanUpNewSecretsOnUpdateError capturedErrOccurred vault
        capturedAccessKeyID capturedSecretKeyID, Response.internalError)
    else if env.createSecretKeyFails then
      (cleanUpNewSecretsOnUpdateError capturedErrOccurred (vault ++ [aID])
        capturedAccessKeyID capturedSecretKeyID, Response.internalError)
    else if env.insertRecordFails then
      (cleanUpNewSecretsOnUpdateError capturedErrOccurred (vault ++ [aID, sID])
        capturedAccessKeyID capturedSecretKeyID, Response.internalError)
    else
      (cleanUpNewSecretsOnUpdateError capturedErrOccurred (vault ++ [aID, sID])
        capturedAccessKeyID capturedSecretKeyID, Response.ok)

/-- C5, code-bug evaluation: a backup-storage create in which both secret
writes succeed and the metadata insert then fails returns an error while
*both* just-written secrets remain in the vault: the deferred
`cleanUpNewSecretsOnUpdateError` received the secret-id pointers as they were
at the `defer` statement — still nil — so it can never delete them, although
its own code comment says it exists to clean up the created secrets. -/
theorem createBackupStorage_insert_failure_orphans_secrets :
    CreateBackupStorage
      { getStorageFails := false, nameExists := false,
        createAccessSecretFails := false, createSecretKeyFails := false,
        insertRecordFails := true } [] "access-id" "secret-id" =
      (["access-id", "secret-id"], Response.internalError) ∧
    "access-id" ∈ (CreateBackupStorage
      { getStorageFails := false, nameExists := false,
        createAccessSecretFails := false, createSecretKeyFails := false,
        insertRecordFails := true } [] "access-id" "secret-id").1 ∧
    "secret-id" ∈ (CreateBackupStorage
      { getStorageFails := false, nameExists := false,
        createAccessSecretFails := false, createSecretKeyFails := false,
        insertRecordFails := true } [] "access-id" "secret-id").1 := by
  decide

/-- C6: creating a backup storage whose name equals an existing record's name
is rejected with a conflict and leaves the secrets vault unchanged — the
duplicate-name check runs before any secret write. -/
theorem createBackupStorage_duplicate_name_conflict (env : CreateBSEnv)
    (vault : List String) (aID sID : String)
    (hok : env.getStorageFails = false) (hdup : env.nameExists = true) :
    CreateBackupStorage env vault aID sID = (vault, Response.conflict) := by
  simp [CreateBackupStorage, hok, hdup]

/-- Witness for C6 at a concrete duplicate-name create attempt. -/
theorem createBackupStorage_duplicate_name_conflict_witness :
    CreateBackupStorage
      { getStorageFails := false, nameExists := true,
        createAccessSecretFails := false, createSecretKeyFails := false,
        insertRecordFails := false } ["existing-id"] "a" "s" =
      (["existing-id"], Response.conflict) :=
  createBackupStorage_duplicate_name_conflict _ _ _ _ rfl rfl

/-! ## Backup-storage update: Kubernetes-side config propagation -/

structure UpdateBSEnv where
  clusters : List String
  deployedIn : List String
  txFails : Bool
  getUpdatedFails : Bool
  listClustersFails : Bool
  initKubeFails : Bool
  updateConfigFails : Bool
deriving DecidableEq, Repr

inductive BSUpdateEvent
  | txCommit
  | updateConfig (clusterID : String)
  | deleteOldSecret (id : String)
deriving DecidableEq, Repr

/-- Embedding of `performBackupStorageUpdate` (api/backup_storage.go) for a
credential update carrying both keys: run the record-update transaction,
re-fetch the record, list the registered Kubernetes clusters (an empty list
is an error), initialize a client for the FIRST listed cluster only
(`ks[0]`, marked FIXME in the source) and call `UpdateConfig` there, then
delete both old secrets via `deleteOldSecretsAfterUpdate`.  `clusters` is the
metadata store's cluster list in order; `deployedIn` records in which
clusters the materialized config is actually deployed — the handler never
reads it. -/
def performBackupStorageUpdate (env : UpdateBSEnv)
    (oldAccessKeyID oldSecretKeyID : String) : List BSUpdateEvent × Response :=
  if env.txFails then ([], Response.internalError)
  else if env.getUpdatedFails then ([BSUpdateEvent.txCommit], Response.internalError)
  else if env.listClustersFails then ([BSUpdateEvent.txCommit], Response.internalError)
  else
    match env.clusters with
    | [] => ([BSUpdateEvent.txCommit], Response.internalError)
    | k :: _ =>
      if env.initKubeFails then ([BSUpdateEvent.txCommit], Response.internalError)
      else if env.updateConfigFails then
        ([BSUpdateEvent.txCommit, BSUpdateEvent.updateConfig k],
         Response.internalError)
      else
        ([BSUpdateEvent.txCommit, BSUpdateEvent.updateConfig k,
          BSUpdateEvent.deleteOldSecret oldAccessKeyID,
          BSUpdateEvent.deleteOldSecret oldSecretKeyID], Response.ok)

def envC7 : UpdateBSEnv :=
  { clusters := ["k1", "k2"], deployedIn := ["k1", "k2"],
    txFails := false, getUpdatedFails := false, listClustersFails := false,
    initKubeFails := false, updateConfigFails := false }

/-- C7, counterexample: with two registered Kubernetes clusters and the
materialized config deployed in both, a successful backup-storage update
updates the config only in the first listed cluster: no `UpdateConfig` call
is made for `k2`, refuting "updated in every registered Kubernetes cluster
where it is deployed". -/
theorem performBackupStorageUpdate_skips_second_cluster :
    "k2" ∈ envC7.clusters ∧ "k2" ∈ envC7.deployedIn ∧
    (performBackupStorageUpdate envC7 "oa" "os").2 = Response.ok ∧
    BSUpdateEvent.updateConfig "k1" ∈ (performBackupStorageUpdate envC7 "oa" "os").1 ∧
    BSUpdateEvent.updateConfig "k2" ∉ (performBackupStorageUpdate envC7 "oa" "os").1 := by
  decide

/-- C7, amended: after the metadata transaction commits, the materialized
config is updated only in the first listed registered Kubernetes cluster,
before the old secrets are deleted (the returned trace is ordered); no other
cluster's config is touched. -/
theorem performBackupStorageUpdate_first_cluster_semantics (env : UpdateBSEnv)
    (k : String) (rest : List String) (oldA oldS : String)
    (hc : env.clusters = k :: rest)
    (h1 : env.txFails = false) (h2 : env.getUpdatedFails = false)
    (h3 : env.listClustersFails = false) (h4 : env.initKubeFails = false)
    (h5 : env.updateConfigFails = false) :
    performBackupStorageUpdate env oldA oldS =
      ([BSUpdateEvent.txCommit, BSUpdateEvent.updateConfig k,
        BSUpdateEvent.deleteOldSecret oldA, BSUpdateEvent.deleteOldSecret oldS],
       Response.ok) ∧
    ∀ c, c ≠ k → BSUpdateEvent.updateConfig c ∉
      (performBackupStorageUpdate env oldA oldS).1 := by
  have he : performBackupStorageUpdate env oldA oldS =
      ([BSUpdateEvent.txCommit, BSUpdateEvent.updateConfig k,
        BSUpdateEvent.deleteOldSecret oldA, BSUpdateEvent.deleteOldSecret oldS],
       Response.ok) := by
    simp [performBackupStorageUpdate, h1, h2, h3, h4, h5, hc]
  refine ⟨he, ?_⟩
  intro c hck
  rw [he]
  simp [hck]

/-- Witness for the amended C7 at two registered clusters. -/
theorem performBackupStorageUpdate_first_cluster_semantics_witness :
    performBackupStorageUpdate envC7 "oa" "os" =
      ([BSUpdateEvent.txCommit, BSUpdateEvent.updateConfig "k1",
        BSUpdateEvent.deleteOldSecret "oa", BSUpdateEvent.deleteOldSecret "os"],
       Response.ok) ∧
    ∀ c, c ≠ "k1" → BSUpdateEvent.updateConfig c ∉
      (performBackupStorageUpdate envC7 "oa" "os").1 :=
  performBackupStorageUpdate_first_cluster_semantics envC7 "k1" ["k2"] "oa" "os"
    rfl rfl rfl rfl rfl rfl
